import Mathlib

/-!
Verification of the autocompose MIDI-generation core against its
specification.

The repository's entry point `generate_midi_from_description`
(`app/mcp/tools.py`) validates a JSON-like music description, fills in
missing `soundfont_name` fields, and hands the description to
`MIDIGenerator.generate_midi_separate` (`app/services/midi.py`), which
compiles each instrument's note list into an independent single-track
MIDI file.  The data model below embeds the JSON dictionaries as
structures with `Option` fields so that a missing key and a present key
are distinguishable.  The file `app/services/midi.py` is not part of the
source tree; the Event Compiler and Splitter are modelled from the
specification (§4.1, §4.2, §7) where noted.
-/

deriving instance DecidableEq for Except

namespace AutoCompose

/-- A single timed note (spec §3 `Note`; a JSON dictionary in the source
with keys `pitch`, `start`, `duration`, `velocity`).  Beat offsets and
durations are real-valued; they are embedded as rationals. -/
structure Note where
  pitch : Int
  start : Rat
  duration : Rat
  velocity : Int
  deriving DecidableEq

/-- The `program` field of an instrument: a General-MIDI program number,
or the literal sentinel string percussion (spec §3 `InstrumentSpec`,
embedded as the tagged variant suggested in spec §9). -/
inductive ProgramRef where
  | melodic (n : Int)
  | percussion
  deriving DecidableEq

/-- A pattern: a free-text tag and an ordered note list (spec §3
`Pattern`). -/
structure Pattern where
  type : Option String
  notes : List Note
  deriving DecidableEq

/-- An instrument definition (spec §3 `InstrumentSpec`).  `name` and
`soundfont_name` are `Option`s: `none` embeds the JSON key being absent,
`some ""` embeds a present-but-empty value. -/
structure InstrumentSpec where
  program : ProgramRef
  name : Option String
  soundfont_name : Option String
  channel : Int
  patterns : List Pattern
  deriving DecidableEq

/-- A full music description as received by
`generate_midi_from_description` (spec §3 `MusicDescription`); every
field is an `Option` because the entry point receives a raw dictionary
and checks key presence itself. -/
structure MusicDescription where
  title : Option String
  tempo : Option Nat
  key : Option String
  time_signature : Option (Int × Int)
  instruments : Option (List InstrumentSpec)
  deriving DecidableEq

/-- A MIDI event as emitted into a track (the mido messages used by the
source: `set_tempo`, `track_name`, `program_change`, `note_on`,
`note_off`, `end_of_track`). -/
inductive MidiEvent where
  | setTempo (value : Nat)
  | trackName (name : String)
  | programChange (program : Int) (channel : Int)
  | noteOn (pitch : Int) (velocity : Int) (channel : Int)
  | noteOff (pitch : Int) (velocity : Int) (channel : Int)
  | endOfTrack
  deriving DecidableEq

/-- A track entry: delta-time in ticks paired with the event. -/
abbrev TimedEvent := Nat × MidiEvent

/-- Tempo transform (spec §4.1 step 1): beats-per-minute to
microseconds per quarter note, `60_000_000 / bpm`. -/
def tempoValue (bpm : Nat) : Nat := 60000000 / bpm

/-- The fixed tick resolution (spec §4.1 step 5: 480 ticks per quarter
note, the value used throughout the repository's scripts). -/
def DEFAULT_TICKS_PER_BEAT : Nat := 480

/-- A note sub-event before delta encoding: absolute tick, whether it is
a note-on (`true`) or note-off (`false`), pitch and velocity
(spec §4.1 step 4). -/
structure AbsEvent where
  tick : Int
  isNoteOn : Bool
  pitch : Int
  velocity : Int
  deriving DecidableEq

/-- Sort rank of a sub-event at a tied tick: note-offs (rank 0) before
note-ons (rank 1) (spec §4.1 step 6 tie-break). -/
def evRank (e : AbsEvent) : Nat := if e.isNoteOn then 1 else 0

/-- The sort order of spec §4.1 step 6: by absolute tick, ties broken
with note-off before note-on. -/
def eventLE (a b : AbsEvent) : Prop :=
  a.tick < b.tick ∨ (a.tick = b.tick ∧ evRank a ≤ evRank b)

instance : DecidableRel eventLE := fun a b => by
  unfold eventLE
  exact inferInstance

instance : IsTotal AbsEvent eventLE := by
  constructor
  intro a b
  unfold eventLE
  omega

instance : IsTrans AbsEvent eventLE := by
  constructor
  intro a b c
  unfold eventLE
  omega

/-- Rounding of a rational to the nearest integer,
`⌊q + 1/2⌋ = ⌊(2*num + den) / (2*den)⌋`, written with explicit integer
floor division so that it evaluates inside the kernel. -/
def ratRound (q : Rat) : Int := Int.fdiv (2 * q.num + q.den) (2 * q.den)

/-- Exact rational addition written through `mkRat`, used for
`start + duration`; evaluates inside the kernel. -/
def ratAdd (a b : Rat) : Rat := mkRat (a.num * b.den + b.num * a.den) (a.den * b.den)

/-- Beat-to-tick conversion (spec §4.1 step 5):
`ticks = round(beats * ticks_per_beat)`. -/
def beatsToTicks (b : Rat) (tpb : Nat) : Int := ratRound (mkRat (b.num * tpb) b.den)

/-- All of an instrument's notes, patterns flattened in order
(spec §3: patterns are merged into one timeline; §4.1 step 4). -/
def flatNotes (inst : InstrumentSpec) : List Note :=
  inst.patterns.flatMap Pattern.notes

/-- The two sub-events of one note: note-on at `start`, note-off at
`start + duration` with velocity 0 (spec §4.1 steps 4-5). -/
def noteSubEvents (tpb : Nat) (n : Note) : List AbsEvent :=
  [⟨beatsToTicks n.start tpb, true, n.pitch, n.velocity⟩,
   ⟨beatsToTicks (ratAdd n.start n.duration) tpb, false, n.pitch, 0⟩]

/-- The flattened sub-event list of an instrument (spec §4.1 step 4). -/
def subEvents (inst : InstrumentSpec) (tpb : Nat) : List AbsEvent :=
  (flatNotes inst).flatMap (noteSubEvents tpb)

/-- The sub-events sorted by tick with the off-before-on tie-break
(spec §4.1 step 6). -/
def sortedEvents (inst : InstrumentSpec) (tpb : Nat) : List AbsEvent :=
  List.insertionSort eventLE (subEvents inst tpb)

/-- The channel an instrument's note events are emitted on: forced to 9
for percussion, the spec's `channel` otherwise (spec §3
`InstrumentSpec.program`). -/
def channelOf (inst : InstrumentSpec) : Int :=
  match inst.program with
  | .percussion => 9
  | .melodic _ => inst.channel

/-- Render one sub-event as a MIDI message on the given channel. -/
def toMidi (channel : Int) (e : AbsEvent) : MidiEvent :=
  if e.isNoteOn then .noteOn e.pitch e.velocity channel
  else .noteOff e.pitch e.velocity channel

/-- Delta-time encoding (spec §4.1 step 7): each event's delta is its
absolute tick minus the previous event's absolute tick. -/
def deltaEncode (channel : Int) : Int → List AbsEvent → List TimedEvent
  | _, [] => []
  | prev, e :: rest =>
      ((e.tick - prev).toNat, toMidi channel e) :: deltaEncode channel e.tick rest

/-- The fixed leading events of a compiled track (spec §4.1 steps 1-3):
tempo meta-event first, then track name, then a program-change unless
the instrument is percussion. -/
def headerEvents (inst : InstrumentSpec) (tempo : Nat) : List TimedEvent :=
  (0, .setTempo (tempoValue tempo)) ::
  (0, .trackName (inst.name.getD "")) ::
  (match inst.program with
   | .percussion => []
   | .melodic p => [(0, .programChange p inst.channel)])

/-- The error reported for a note with non-positive duration
(spec §4.1 error conditions, §7 `ValidationError`, §8 scenario). -/
def durationErrorMsg : String :=
  "ValidationError: note with non-positive duration"

/-- Modelled from the spec: the Event Compiler contract
`compile(instrument, tempo, ticks_per_beat)` of spec §4.1, whose
implementation (`app/services/midi.py`) is absent from the source tree.
Follows the spec's algorithm steps 1-8 and its recommended rejection
policy for notes with non-positive duration (§4.1 error conditions, §7,
§8 scenario). -/
def compile (inst : InstrumentSpec) (tempo tpb : Nat) :
    Except String (List TimedEvent) :=
  if (flatNotes inst).any (fun n => decide (n.duration ≤ 0)) then
    .error durationErrorMsg
  else
    .ok (headerEvents inst tempo ++
         deltaEncode (channelOf inst) 0 (sortedEvents inst tpb) ++
         [(0, .endOfTrack)])

/-- Resolution of the output file base name from `soundfont_name`
(spec §4.2 step 2a): missing or empty falls back to `name`, then to the
synthetic label `Instrument_<index>`. -/
def resolveSoundfontName (idx : Nat) (inst : InstrumentSpec) : String :=
  match inst.soundfont_name with
  | some s =>
      if s = "" then inst.name.getD ("Instrument_" ++ toString idx) else s
  | none => inst.name.getD ("Instrument_" ++ toString idx)

/-- One per-instrument output record (spec §4.2 step 2e, §6
`InstrumentResult`).  `track` stands for the serialized MIDI payload
(`midi_data` in the source); `file_name` is the base name plus `.mid`. -/
structure InstrumentResult where
  instrument_name : String
  soundfont_name : String
  file_name : String
  file_path : String
  track : List TimedEvent
  track_count : Nat
  deriving DecidableEq

/-- Modelled from the spec: the per-instrument loop of the Composition
Splitter (spec §4.2 step 2, §7 propagation policy), whose implementation
(`app/services/midi.py`, `generate_midi_separate`) is absent from the
source tree.  Fail-fast: the first compiler rejection aborts the whole
composition.  The uniqueness token of the composition directory and the
name-collision suffix (spec §4.2 steps 1 and 2c) are outside the claims
and omitted: `dir` is the composition directory, file names are the
resolved soundfont name plus `.mid`. -/
def generateSeparateGo (dir : String) (tempo : Nat) :
    Nat → List InstrumentSpec → Except String (List InstrumentResult)
  | _, [] => .ok []
  | idx, inst :: rest =>
      match compile inst tempo DEFAULT_TICKS_PER_BEAT with
      | .error e => .error e
      | .ok tr =>
          match generateSeparateGo dir tempo (idx + 1) rest with
          | .error e => .error e
          | .ok rs =>
              .ok ({ instrument_name := inst.name.getD "",
                     soundfont_name := resolveSoundfontName idx inst,
                     file_name := resolveSoundfontName idx inst ++ ".mid",
                     file_path :=
                       dir ++ "/" ++ resolveSoundfontName idx inst ++ ".mid",
                     track := tr,
                     track_count := 1 } :: rs)

/-- Modelled from the spec: `generate_separate` (spec §4.2), the entry
of the absent `app/services/midi.py`.  The composition directory is
derived from the title under the `output` root (spec §6 filesystem
layout; the nondeterministic uniqueness token is omitted). -/
def generate_midi_separate (title : String) (tempo : Nat)
    (instruments : List InstrumentSpec) : Except String (List InstrumentResult) :=
  generateSeparateGo ("output/" ++ title) tempo 0 instruments

/-- The error message of `app/mcp/tools.py` line 220 for a missing
mandatory field. -/
def missingFieldMsg (f : String) : String :=
  "Missing required field in music description: " ++ f

/-- The defaulting step of `app/mcp/tools.py` lines 223-226: an
instrument whose `soundfont_name` key is absent gets it set to `name`,
or to `Instrument_<index>` when `name` is also absent.  A present key is
left untouched (the source only tests key membership). -/
def defaultSoundfont (idx : Nat) (inst : InstrumentSpec) : InstrumentSpec :=
  match inst.soundfont_name with
  | some _ => inst
  | none =>
      { inst with
        soundfont_name := some (inst.name.getD ("Instrument_" ++ toString idx)) }

/-- The `enumerate` loop of `app/mcp/tools.py` lines 223-226 applied to
the instrument list, indices starting at `idx`. -/
def applyDefaults : Nat → List InstrumentSpec → List InstrumentSpec
  | _, [] => []
  | idx, inst :: rest => defaultSoundfont idx inst :: applyDefaults (idx + 1) rest

/-- `os.path.dirname` restricted to the slash-separated relative paths
the generator produces. -/
def os_dirname (p : String) : String :=
  let rcs := p.toList.reverse
  if rcs.contains '/' then
    String.mk (((rcs.dropWhile (fun c => c != '/')).drop 1).reverse)
  else ""

/-- The guarded directory derivation of `app/mcp/tools.py` line 232 and
`app/api/routes/generate.py` line 108:
`os.path.dirname(results[0].file_path) if results else ""`. -/
def dirPathOf (results : List InstrumentResult) : String :=
  match results with
  | [] => ""
  | r :: _ => os_dirname r.file_path

/-- The structured response of `generate_midi_from_description`
(`app/mcp/tools.py` lines 247-251). -/
structure GenResponse where
  title : String
  directory : String
  tracks : List InstrumentResult
  deriving DecidableEq

/-- The entry point `generate_midi_from_description` of
`app/mcp/tools.py` lines 216-251: validate the three mandatory fields in
order, default missing `soundfont_name`s, then generate the
per-instrument files.  A raised exception is embedded as `.error`. -/
def generate_midi_from_description (md : MusicDescription) :
    Except String GenResponse :=
  if md.title.isNone then .error (missingFieldMsg "title")
  else if md.tempo.isNone then .error (missingFieldMsg "tempo")
  else if md.instruments.isNone then .error (missingFieldMsg "instruments")
  else
    let insts := applyDefaults 0 (md.instruments.getD [])
    match generate_midi_separate (md.title.getD "") (md.tempo.getD 0) insts with
    | .error e => .error e
    | .ok results =>
        .ok { title := md.title.getD "",
              directory := dirPathOf results,
              tracks := results }

/-- The state of the caller's `music_description` dictionary after
`generate_midi_from_description` returns or raises: the source mutates
the instrument dictionaries in place (`app/mcp/tools.py` line 226), but
only after the mandatory-field validation has passed. -/
def descriptionAfter (md : MusicDescription) : MusicDescription :=
  if md.title.isNone then md
  else if md.tempo.isNone then md
  else if md.instruments.isNone then md
  else { md with instruments := some (applyDefaults 0 (md.instruments.getD [])) }

/-- The files persisted for a composition: the result paths on success,
none on failure (spec §4.2 failure semantics and §7: fail-fast, no
partial output). -/
def filesWritten (md : MusicDescription) : List String :=
  match generate_midi_from_description md with
  | .error _ => []
  | .ok r => r.tracks.map InstrumentResult.file_path

/-! ### Concrete inputs used by witnesses and counterexamples -/

/-- The single-instrument piano description of the spec §8 scenario. -/
def pianoInst : InstrumentSpec :=
  { program := .melodic 0, name := some "Piano", soundfont_name := some "Grand Piano",
    channel := 0,
    patterns := [{ type := none,
                   notes := [{ pitch := 60, start := 0, duration := 1, velocity := 80 }] }] }

/-- The spec §8 scenario description. -/
def mdScenario : MusicDescription :=
  { title := some "Test", tempo := some 120, key := none, time_signature := none,
    instruments := some [pianoInst] }

/-- The compiled track of the spec §8 scenario. -/
def pianoTrack : List TimedEvent :=
  [(0, .setTempo 500000), (0, .trackName "Piano"), (0, .programChange 0 0),
   (0, .noteOn 60 80 0), (480, .noteOff 60 0 0), (0, .endOfTrack)]

/-! ### Helper lemmas -/

theorem applyDefaults_nil (idx : Nat) : applyDefaults idx [] = [] := rfl

theorem applyDefaults_cons (idx : Nat) (inst : InstrumentSpec) (rest : List InstrumentSpec) :
    applyDefaults idx (inst :: rest) = defaultSoundfont idx inst :: applyDefaults (idx + 1) rest :=
  rfl

theorem defaultSoundfont_patterns (idx : Nat) (inst : InstrumentSpec) :
    (defaultSoundfont idx inst).patterns = inst.patterns := by
  unfold defaultSoundfont
  cases inst.soundfont_name <;> rfl

theorem defaultSoundfont_of_isSome (idx : Nat) (inst : InstrumentSpec)
    (h : inst.soundfont_name.isSome) : defaultSoundfont idx inst = inst := by
  unfold defaultSoundfont
  cases hsf : inst.soundfont_name with
  | none => rw [hsf] at h; simp at h
  | some s => rfl

theorem applyDefaults_of_all_some (idx : Nat) (l : List InstrumentSpec)
    (h : ∀ inst ∈ l, inst.soundfont_name.isSome) : applyDefaults idx l = l := by
  induction l generalizing idx with
  | nil => rfl
  | cons i rest ih =>
      rw [applyDefaults_cons, defaultSoundfont_of_isSome idx i (h i (List.mem_cons_self i rest)),
        ih (idx + 1) (fun inst hm => h inst (List.mem_cons_of_mem i hm))]

theorem compile_ok_decomp (inst : InstrumentSpec) (tempo tpb : Nat) (tr : List TimedEvent)
    (h : compile inst tempo tpb = .ok tr) :
    tr = headerEvents inst tempo ++ deltaEncode (channelOf inst) 0 (sortedEvents inst tpb) ++
      [(0, MidiEvent.endOfTrack)] := by
  unfold compile at h
  split at h
  · cases h
  · cases h
    rfl

theorem compile_error_eq (inst : InstrumentSpec) (tempo tpb : Nat) (e : String)
    (h : compile inst tempo tpb = .error e) : e = durationErrorMsg := by
  unfold compile at h
  split at h
  · cases h
    rfl
  · cases h

theorem compile_rejects_bad_duration (inst : InstrumentSpec) (tempo tpb : Nat) (n : Note)
    (hn : n ∈ flatNotes inst) (hd : n.duration ≤ 0) :
    compile inst tempo tpb = .error durationErrorMsg := by
  have hany : (flatNotes inst).any (fun n => decide (n.duration ≤ 0)) = true :=
    List.any_eq_true.mpr ⟨n, hn, by simpa using hd⟩
  simp [compile, hany]

theorem deltaEncode_mem (ch : Int) (l : List AbsEvent) :
    ∀ (prev : Int) (d : Nat) (e : MidiEvent),
      (d, e) ∈ deltaEncode ch prev l → ∃ a, a ∈ l ∧ e = toMidi ch a := by
  induction l with
  | nil =>
      intro prev d e h
      simp [deltaEncode] at h
  | cons a rest ih =>
      intro prev d e h
      simp only [deltaEncode, List.mem_cons] at h
      rcases h with h | h
      · exact ⟨a, List.mem_cons_self a rest, (Prod.ext_iff.mp h).2⟩
      · obtain ⟨b, hb, he⟩ := ih a.tick d e h
        exact ⟨b, List.mem_cons_of_mem a hb, he⟩

theorem toMidi_shape (ch : Int) (a : AbsEvent) :
    (∃ p v, toMidi ch a = MidiEvent.noteOn p v ch) ∨
    (∃ p v, toMidi ch a = MidiEvent.noteOff p v ch) := by
  cases ha : a.isNoteOn with
  | false =>
      right
      exact ⟨a.pitch, a.velocity, by simp [toMidi, ha]⟩
  | true =>
      left
      exact ⟨a.pitch, a.velocity, by simp [toMidi, ha]⟩

/-! ### Claim C1 -/

/-- Claim C1: a music description missing any of the mandatory top-level
fields `title`, `tempo` or `instruments` makes
`generate_midi_from_description` signal a validation error whose message
names a missing field, before any MIDI generation happens, and no file
is written for the composition. -/
theorem missing_mandatory_field_rejected (md : MusicDescription)
    (h : md.title = none ∨ md.tempo = none ∨ md.instruments = none) :
    ∃ f, ((f = "title" ∧ md.title = none) ∨ (f = "tempo" ∧ md.tempo = none) ∨
          (f = "instruments" ∧ md.instruments = none)) ∧
      generate_midi_from_description md = .error (missingFieldMsg f) ∧
      filesWritten md = [] := by
  cases hT : md.title with
  | none =>
      have hg : generate_midi_from_description md = .error (missingFieldMsg "title") := by
        simp [generate_midi_from_description, hT]
      exact ⟨"title", Or.inl ⟨rfl, rfl⟩, hg, by simp [filesWritten, hg]⟩
  | some t =>
      cases hB : md.tempo with
      | none =>
          have hg : generate_midi_from_description md = .error (missingFieldMsg "tempo") := by
            simp [generate_midi_from_description, hT, hB]
          exact ⟨"tempo", Or.inr (Or.inl ⟨rfl, rfl⟩), hg, by simp [filesWritten, hg]⟩
      | some b =>
          cases hI : md.instruments with
          | none =>
              have hg : generate_midi_from_description md =
                  .error (missingFieldMsg "instruments") := by
                simp [generate_midi_from_description, hT, hB, hI]
              exact ⟨"instruments", Or.inr (Or.inr ⟨rfl, rfl⟩), hg,
                by simp [filesWritten, hg]⟩
          | some l =>
              rw [hT, hB, hI] at h
              rcases h with h | h | h <;> cases h

/-- A description with `tempo` and `instruments` but no `title`. -/
def mdNoTitle : MusicDescription :=
  { title := none, tempo := some 120, key := none, time_signature := none,
    instruments := some [] }

/-- Witness for C1 at a concrete description missing `title`. -/
theorem missing_mandatory_field_rejected_witness :
    ∃ f, ((f = "title" ∧ mdNoTitle.title = none) ∨ (f = "tempo" ∧ mdNoTitle.tempo = none) ∨
          (f = "instruments" ∧ mdNoTitle.instruments = none)) ∧
      generate_midi_from_description mdNoTitle = .error (missingFieldMsg f) ∧
      filesWritten mdNoTitle = [] :=
  missing_mandatory_field_rejected mdNoTitle (Or.inl rfl)

/-! ### Claim C2 -/

/-- An instrument whose `soundfont_name` key is present but empty. -/
def instEmptySoundfont : InstrumentSpec :=
  { program := .melodic 0, name := some "Piano", soundfont_name := some "",
    channel := 0, patterns := [] }

/-- Counterexample to C2 as stated: the defaulting step of
`generate_midi_from_description` only tests key presence, so a
present-but-empty `soundfont_name` is NOT defaulted to the instrument's
name and stays empty. -/
theorem empty_soundfont_not_defaulted :
    instEmptySoundfont.soundfont_name = some "" ∧
    instEmptySoundfont.name = some "Piano" ∧
    (applyDefaults 0 [instEmptySoundfont]).map InstrumentSpec.soundfont_name = [some ""] := by
  decide

/-- Claim C2 (amended): the defaulting step fills only an absent
`soundfont_name`: the instrument at position `k` (enumeration starting
at `idx`) ends with `soundfont_name` equal to its present value if any,
else to `name`, else to the synthetic label `Instrument_<index>`; all
other fields are untouched, and every instrument ends with exactly one
`soundfont_name` value. -/
theorem soundfont_defaulting_chain (idx k : Nat) (insts : List InstrumentSpec)
    (inst : InstrumentSpec) (h : insts[k]? = some inst) :
    ∃ inst', (applyDefaults idx insts)[k]? = some inst' ∧
      inst'.soundfont_name =
        some (inst.soundfont_name.getD (inst.name.getD ("Instrument_" ++ toString (idx + k)))) ∧
      inst'.program = inst.program ∧ inst'.name = inst.name ∧
      inst'.channel = inst.channel ∧ inst'.patterns = inst.patterns := by
  induction insts generalizing idx k with
  | nil => simp at h
  | cons i rest ih =>
      cases k with
      | zero =>
          simp only [List.getElem?_cons_zero, Option.some.injEq] at h
          subst h
          refine ⟨defaultSoundfont idx i, by simp [applyDefaults_cons], ?_⟩
          cases hsf : i.soundfont_name with
          | none => simp [defaultSoundfont, hsf]
          | some s => simp [defaultSoundfont, hsf]
      | succ k =>
          simp only [List.getElem?_cons_succ] at h
          obtain ⟨inst', h1, h2, h3⟩ := ih (idx + 1) k h
          refine ⟨inst', ?_, ?_, h3⟩
          · simpa [applyDefaults_cons] using h1
          · have : idx + 1 + k = idx + (k + 1) := by omega
            rw [← this]
            exact h2

/-- An instrument with neither `soundfont_name` nor `name`. -/
def instAnonymous : InstrumentSpec :=
  { program := .melodic 0, name := none, soundfont_name := none,
    channel := 0, patterns := [] }

/-- Witness for the amended C2: the anonymous instrument at position 0
gets the synthetic label. -/
theorem soundfont_defaulting_chain_witness :
    ∃ inst', (applyDefaults 0 [instAnonymous])[0]? = some inst' ∧
      inst'.soundfont_name =
        some (instAnonymous.soundfont_name.getD
          (instAnonymous.name.getD ("Instrument_" ++ toString (0 + 0)))) ∧
      inst'.program = instAnonymous.program ∧ inst'.name = instAnonymous.name ∧
      inst'.channel = instAnonymous.channel ∧ inst'.patterns = instAnonymous.patterns :=
  soundfont_defaulting_chain 0 0 [instAnonymous] instAnonymous rfl

/-! ### Claim C10 -/

/-- A description whose single instrument lacks `soundfont_name`. -/
def mdMissingSoundfont : MusicDescription :=
  { title := some "T", tempo := some 100, key := none, time_signature := none,
    instruments := some [{ program := .melodic 33, name := some "Bass",
                           soundfont_name := none, channel := 1, patterns := [] }] }

/-- Counterexample to C10 as stated: `generate_midi_from_description`
mutates its input, writing the defaulted `soundfont_name` into the
caller's instrument dictionary. -/
theorem mutation_counterexample :
    descriptionAfter mdMissingSoundfont ≠ mdMissingSoundfont ∧
    (descriptionAfter mdMissingSoundfont).instruments =
      some [{ program := .melodic 33, name := some "Bass",
              soundfont_name := some "Bass", channel := 1, patterns := [] }] := by
  decide

/-- Claim C10 (amended): the only mutation the call performs is filling
in absent `soundfont_name` fields; when every instrument already carries
a `soundfont_name`, every field of the description is unchanged after
the call. -/
theorem no_mutation_when_soundfonts_present (md : MusicDescription)
    (h : ∀ inst ∈ md.instruments.getD [], inst.soundfont_name.isSome) :
    descriptionAfter md = md := by
  unfold descriptionAfter
  split
  · rfl
  · split
    · rfl
    · split
      · rfl
      · rename_i hT hB hI
        cases hInst : md.instruments with
        | none => simp [hInst] at hI
        | some l =>
            rw [hInst] at h
            simp only [hInst, Option.getD_some] at h ⊢
            rw [applyDefaults_of_all_some 0 l h]
            cases md
            simp_all

/-- Witness for the amended C10: the scenario description, whose
instrument carries a `soundfont_name`, is unchanged. -/
theorem no_mutation_witness : descriptionAfter mdScenario = mdScenario :=
  no_mutation_when_soundfonts_present mdScenario (by decide)

/-! ### Claim C3 -/

theorem applyDefaults_patterns_mem (idx : Nat) (l : List InstrumentSpec)
    (inst : InstrumentSpec) (h : inst ∈ l) :
    ∃ inst' ∈ applyDefaults idx l, inst'.patterns = inst.patterns := by
  induction l generalizing idx with
  | nil => simp at h
  | cons i rest ih =>
      rcases List.mem_cons.mp h with heq | hm
      · subst heq
        exact ⟨defaultSoundfont idx inst, List.mem_cons_self _ _,
          defaultSoundfont_patterns idx inst⟩
      · obtain ⟨inst', hmem, hpat⟩ := ih (idx + 1) hm
        exact ⟨inst', List.mem_cons_of_mem _ hmem, hpat⟩

theorem generateSeparateGo_bad (dir : String) (tempo : Nat) (l : List InstrumentSpec) :
    ∀ idx : Nat, (∃ inst ∈ l, ∃ n ∈ flatNotes inst, n.duration ≤ 0) →
      generateSeparateGo dir tempo idx l = .error durationErrorMsg := by
  induction l with
  | nil =>
      intro idx h
      simp at h
  | cons i rest ih =>
      intro idx h
      rcases h with ⟨inst, hmem, n, hn, hd⟩
      rcases List.mem_cons.mp hmem with heq | hmem'
      · subst heq
        have hc := compile_rejects_bad_duration inst tempo DEFAULT_TICKS_PER_BEAT n hn hd
        simp [generateSeparateGo, hc]
      · cases hc : compile i tempo DEFAULT_TICKS_PER_BEAT with
        | error e =>
            have he := compile_error_eq i tempo DEFAULT_TICKS_PER_BEAT e hc
            simp [generateSeparateGo, hc, he]
        | ok tr =>
            have hrec := ih (idx + 1) ⟨inst, hmem', n, hn, hd⟩
            simp [generateSeparateGo, hc, hrec]

/-- Claim C3: a description (with the mandatory fields present) holding
some note with non-positive duration makes generation signal the
duration `ValidationError` and write zero MIDI files for the
composition. -/
theorem bad_duration_rejected (md : MusicDescription) (t : String) (bpm : Nat)
    (insts : List InstrumentSpec)
    (hT : md.title = some t) (hB : md.tempo = some bpm) (hI : md.instruments = some insts)
    (hbad : ∃ inst ∈ insts, ∃ p ∈ inst.patterns, ∃ n ∈ p.notes, n.duration ≤ 0) :
    generate_midi_from_description md = .error durationErrorMsg ∧
    filesWritten md = [] := by
  have hbad' : ∃ inst ∈ insts, ∃ n ∈ flatNotes inst, n.duration ≤ 0 := by
    obtain ⟨inst, hi, p, hp, n, hn, hd⟩ := hbad
    exact ⟨inst, hi, n, by unfold flatNotes; exact List.mem_flatMap.mpr ⟨p, hp, hn⟩, hd⟩
  have hbad2 : ∃ inst ∈ applyDefaults 0 insts, ∃ n ∈ flatNotes inst, n.duration ≤ 0 := by
    obtain ⟨inst, hi, n, hn, hd⟩ := hbad'
    obtain ⟨inst', hm', hpat⟩ := applyDefaults_patterns_mem 0 insts inst hi
    refine ⟨inst', hm', n, ?_, hd⟩
    unfold flatNotes at hn ⊢
    rw [hpat]
    exact hn
  have hgo := generateSeparateGo_bad ("output/" ++ t) bpm (applyDefaults 0 insts) 0 hbad2
  have hg : generate_midi_from_description md = .error durationErrorMsg := by
    simp [generate_midi_from_description, hT, hB, hI, generate_midi_separate, hgo]
  exact ⟨hg, by simp [filesWritten, hg]⟩

/-- A note with duration 0. -/
def badNote : Note := { pitch := 60, start := 0, duration := 0, velocity := 80 }

/-- A pattern holding only the zero-duration note. -/
def badPattern : Pattern := { type := none, notes := [badNote] }

/-- An instrument holding the zero-duration note. -/
def instBadDuration : InstrumentSpec :=
  { program := .melodic 0, name := some "Piano", soundfont_name := some "Grand Piano",
    channel := 0, patterns := [badPattern] }

/-- A description whose single note has duration 0. -/
def mdBadDuration : MusicDescription :=
  { title := some "X", tempo := some 90, key := none, time_signature := none,
    instruments := some [instBadDuration] }

/-- Witness for C3 at a concrete zero-duration note. -/
theorem bad_duration_rejected_witness :
    generate_midi_from_description mdBadDuration = .error durationErrorMsg ∧
    filesWritten mdBadDuration = [] :=
  bad_duration_rejected mdBadDuration "X" 90 [instBadDuration] rfl rfl rfl
    ⟨instBadDuration, List.mem_cons_self _ _, badPattern, List.mem_cons_self _ _,
     badNote, List.mem_cons_self _ _, by decide⟩

/-! ### Claim C4 -/

/-- Claim C4: a successfully compiled instrument track is, in order, the
tempo meta-event (delta 0, value `60_000_000 / bpm`) first, then the
track-name meta-event, then a program-change unless the instrument is
percussion, then the delta-encoding of a tick-sorted arrangement of the
note-on/note-off sub-events, and the end-of-track event last, with
nothing but note-on/note-off messages in the note segment. -/
theorem compile_track_structure (inst : InstrumentSpec) (tempo tpb : Nat)
    (tr : List TimedEvent) (h : compile inst tempo tpb = .ok tr) :
    ∃ s : List AbsEvent,
      s.Perm (subEvents inst tpb) ∧ List.Sorted eventLE s ∧
      tr = (0, MidiEvent.setTempo (60000000 / tempo)) ::
           (0, MidiEvent.trackName (inst.name.getD "")) ::
           ((match inst.program with
             | ProgramRef.percussion => ([] : List TimedEvent)
             | ProgramRef.melodic p => [(0, MidiEvent.programChange p inst.channel)]) ++
            (deltaEncode (channelOf inst) 0 s ++ [(0, MidiEvent.endOfTrack)])) ∧
      ∀ d e, (d, e) ∈ deltaEncode (channelOf inst) 0 s →
        (∃ p v c, e = MidiEvent.noteOn p v c) ∨ ∃ p v c, e = MidiEvent.noteOff p v c := by
  refine ⟨sortedEvents inst tpb, List.perm_insertionSort eventLE _,
    List.sorted_insertionSort eventLE _, ?_, ?_⟩
  · have hd := compile_ok_decomp inst tempo tpb tr h
    rw [hd]
    simp [headerEvents, tempoValue, List.append_assoc]
  · intro d e hm
    obtain ⟨a, _, he⟩ := deltaEncode_mem (channelOf inst) _ 0 d e hm
    rcases toMidi_shape (channelOf inst) a with ⟨p, v, hs⟩ | ⟨p, v, hs⟩
    · exact Or.inl ⟨p, v, channelOf inst, he.trans hs⟩
    · exact Or.inr ⟨p, v, channelOf inst, he.trans hs⟩

/-- Witness for C4 at the scenario instrument. -/
theorem compile_track_structure_witness :
    compile pianoInst 120 480 = .ok pianoTrack ∧
    ∃ s : List AbsEvent,
      s.Perm (subEvents pianoInst 480) ∧ List.Sorted eventLE s ∧
      pianoTrack = (0, MidiEvent.setTempo (60000000 / 120)) ::
           (0, MidiEvent.trackName (pianoInst.name.getD "")) ::
           ((match pianoInst.program with
             | ProgramRef.percussion => ([] : List TimedEvent)
             | ProgramRef.melodic p => [(0, MidiEvent.programChange p pianoInst.channel)]) ++
            (deltaEncode (channelOf pianoInst) 0 s ++ [(0, MidiEvent.endOfTrack)])) ∧
      ∀ d e, (d, e) ∈ deltaEncode (channelOf pianoInst) 0 s →
        (∃ p v c, e = MidiEvent.noteOn p v c) ∨ ∃ p v c, e = MidiEvent.noteOff p v c :=
  ⟨by decide, compile_track_structure pianoInst 120 480 pianoTrack (by decide)⟩

/-! ### Claim C5 -/

/-- The per-instrument result of the spec §8 scenario. -/
def respScenario : GenResponse :=
  { title := "Test", directory := "output/Test",
    tracks := [{ instrument_name := "Piano", soundfont_name := "Grand Piano",
                 file_name := "Grand Piano.mid", file_path := "output/Test/Grand Piano.mid",
                 track := pianoTrack, track_count := 1 }] }

/-- Claim C5: the spec §8 scenario description compiles to exactly one
file named `Grand Piano.mid` whose track contains, in order, the tempo
event (500000 µs per quarter note), program-change(0, channel 0),
note-on(60, 80, channel 0) at tick 0, note-off(60, 0, channel 0) at tick
480 (480 ticks per beat), and end-of-track. -/
theorem scenario_grand_piano :
    generate_midi_from_description mdScenario = .ok respScenario ∧
    respScenario.tracks.map InstrumentResult.file_name = ["Grand Piano.mid"] ∧
    respScenario.tracks.map InstrumentResult.track = [pianoTrack] ∧
    List.Sublist
      [((0 : Nat), MidiEvent.setTempo 500000), (0, MidiEvent.programChange 0 0),
       (0, MidiEvent.noteOn 60 80 0), (480, MidiEvent.noteOff 60 0 0),
       (0, MidiEvent.endOfTrack)] pianoTrack :=
  ⟨by decide, by decide, by decide, by decide⟩

/-! ### Claim C6 -/

/-- Claim C6: for a percussion instrument the compiled track contains no
program-change event, and every note-on/note-off it contains is on
channel 9. -/
theorem percussion_channel_nine (inst : InstrumentSpec) (tempo tpb : Nat)
    (tr : List TimedEvent) (hp : inst.program = .percussion)
    (h : compile inst tempo tpb = .ok tr) :
    (∀ d p c, (d, MidiEvent.programChange p c) ∉ tr) ∧
    (∀ d p v c, (d, MidiEvent.noteOn p v c) ∈ tr → c = 9) ∧
    (∀ d p v c, (d, MidiEvent.noteOff p v c) ∈ tr → c = 9) := by
  have hd := compile_ok_decomp inst tempo tpb tr h
  have hch : channelOf inst = 9 := by simp [channelOf, hp]
  have hdr : headerEvents inst tempo =
      [(0, .setTempo (tempoValue tempo)), (0, .trackName (inst.name.getD ""))] := by
    simp [headerEvents, hp]
  subst hd
  rw [hdr, hch]
  refine ⟨?_, ?_, ?_⟩
  · intro d p c hm
    rcases List.mem_append.mp hm with hm1 | hm2
    · rcases List.mem_append.mp hm1 with hh | hdelta
      · simp at hh
      · obtain ⟨a, _, he⟩ := deltaEncode_mem 9 _ 0 d _ hdelta
        rcases toMidi_shape 9 a with ⟨q, v, hs⟩ | ⟨q, v, hs⟩ <;>
          rw [hs] at he <;> cases he
    · simp at hm2
  · intro d p v c hm
    rcases List.mem_append.mp hm with hm1 | hm2
    · rcases List.mem_append.mp hm1 with hh | hdelta
      · simp at hh
      · obtain ⟨a, _, he⟩ := deltaEncode_mem 9 _ 0 d _ hdelta
        rcases toMidi_shape 9 a with ⟨q, w, hs⟩ | ⟨q, w, hs⟩ <;> rw [hs] at he
        · cases he
          rfl
        · cases he
    · simp at hm2
  · intro d p v c hm
    rcases List.mem_append.mp hm with hm1 | hm2
    · rcases List.mem_append.mp hm1 with hh | hdelta
      · simp at hh
      · obtain ⟨a, _, he⟩ := deltaEncode_mem 9 _ 0 d _ hdelta
        rcases toMidi_shape 9 a with ⟨q, w, hs⟩ | ⟨q, w, hs⟩ <;> rw [hs] at he
        · cases he
        · cases he
          rfl
    · simp at hm2

/-- A percussion instrument with one kick-drum note; its declared
`channel` field is 9 as the composition guidelines require. -/
def drumInst : InstrumentSpec :=
  { program := .percussion, name := some "Drums", soundfont_name := some "Standard Drum Kit",
    channel := 9,
    patterns := [{ type := none,
                   notes := [{ pitch := 36, start := 0, duration := 1, velocity := 100 }] }] }

/-- The compiled track of the percussion witness instrument. -/
def drumTrack : List TimedEvent :=
  [(0, .setTempo 500000), (0, .trackName "Drums"),
   (0, .noteOn 36 100 9), (480, .noteOff 36 0 9), (0, .endOfTrack)]

/-- Witness for C6 at the concrete percussion instrument. -/
theorem percussion_channel_nine_witness :
    compile drumInst 120 480 = .ok drumTrack ∧
    ((∀ d p c, (d, MidiEvent.programChange p c) ∉ drumTrack) ∧
     (∀ d p v c, (d, MidiEvent.noteOn p v c) ∈ drumTrack → c = 9) ∧
     (∀ d p v c, (d, MidiEvent.noteOff p v c) ∈ drumTrack → c = 9)) :=
  ⟨by decide, percussion_channel_nine drumInst 120 480 drumTrack rfl (by decide)⟩

/-! ### Claim C7 -/

/-- Claim C7: in a compiled track the note segment is the
delta-encoding of the tie-broken sorted sub-event list, in which a
note-off is never emitted after a note-on sharing its absolute tick —
equivalently, when a note-off and a note-on fall on the same tick, the
note-off comes first. -/
theorem tie_break_off_before_on (inst : InstrumentSpec) (tempo tpb : Nat)
    (tr : List TimedEvent) (h : compile inst tempo tpb = .ok tr) :
    tr = headerEvents inst tempo ++ deltaEncode (channelOf inst) 0 (sortedEvents inst tpb) ++
      [(0, MidiEvent.endOfTrack)] ∧
    ∀ i j : Fin (sortedEvents inst tpb).length, i < j →
      ((sortedEvents inst tpb).get i).tick = ((sortedEvents inst tpb).get j).tick →
      ((sortedEvents inst tpb).get i).isNoteOn = true →
      ((sortedEvents inst tpb).get j).isNoteOn = true := by
  refine ⟨compile_ok_decomp inst tempo tpb tr h, ?_⟩
  intro i j hij htick hon
  have hs : List.Sorted eventLE (sortedEvents inst tpb) :=
    List.sorted_insertionSort eventLE _
  have hr : eventLE ((sortedEvents inst tpb).get i) ((sortedEvents inst tpb).get j) :=
    List.pairwise_iff_get.mp hs i j hij
  rcases hr with hlt | ⟨heq, hrank⟩
  · rw [htick] at hlt
    exact absurd hlt (lt_irrefl _)
  · cases hj : ((sortedEvents inst tpb).get j).isNoteOn
    · exfalso
      simp only [List.get_eq_getElem] at hon hj
      simp [evRank, hon, hj] at hrank
    · rfl

/-- Witness for C7 at the scenario instrument. -/
theorem tie_break_off_before_on_witness :
    pianoTrack = headerEvents pianoInst 120 ++
      deltaEncode (channelOf pianoInst) 0 (sortedEvents pianoInst 480) ++
      [(0, MidiEvent.endOfTrack)] ∧
    ∀ i j : Fin (sortedEvents pianoInst 480).length, i < j →
      ((sortedEvents pianoInst 480).get i).tick = ((sortedEvents pianoInst 480).get j).tick →
      ((sortedEvents pianoInst 480).get i).isNoteOn = true →
      ((sortedEvents pianoInst 480).get j).isNoteOn = true :=
  tie_break_off_before_on pianoInst 120 480 pianoTrack (by decide)

/-! ### Claim C8 -/

/-- Claim C8: compilation is deterministic — two invocations of the
Event Compiler on equal instrument, tempo and resolution inputs produce
equal output; the compiler is a pure function of its arguments with no
hidden state or randomness. -/
theorem compile_deterministic (i1 i2 : InstrumentSpec) (t1 t2 tpb1 tpb2 : Nat)
    (hi : i1 = i2) (ht : t1 = t2) (htpb : tpb1 = tpb2) :
    compile i1 t1 tpb1 = compile i2 t2 tpb2 := by
  rw [hi, ht, htpb]

/-- Witness for C8 at the scenario instrument. -/
theorem compile_deterministic_witness :
    compile pianoInst 120 480 = compile pianoInst 120 480 :=
  compile_deterministic pianoInst pianoInst 120 120 480 480 rfl rfl rfl

/-! ### Claim C9 -/

/-- Claim C9: a description with an empty `instruments` list generates
an empty result list without an error, and the caller-side directory
derivation is guarded, yielding the empty string instead of
dereferencing a first result. -/
theorem empty_instruments_empty_result (md : MusicDescription) (t : String) (bpm : Nat)
    (hT : md.title = some t) (hB : md.tempo = some bpm) (hI : md.instruments = some []) :
    generate_midi_from_description md = .ok { title := t, directory := "", tracks := [] } ∧
    dirPathOf [] = "" ∧ filesWritten md = [] := by
  have hg : generate_midi_from_description md =
      .ok { title := t, directory := "", tracks := [] } := by
    simp [generate_midi_from_description, hT, hB, hI, generate_midi_separate,
      generateSeparateGo, dirPathOf]
  exact ⟨hg, rfl, by simp [filesWritten, hg]⟩

/-- A description with no instruments. -/
def mdNoInstruments : MusicDescription :=
  { title := some "Empty", tempo := some 100, key := none, time_signature := none,
    instruments := some [] }

/-- Witness for C9 at a concrete empty-instrument description. -/
theorem empty_instruments_empty_result_witness :
    generate_midi_from_description mdNoInstruments =
      .ok { title := "Empty", directory := "", tracks := [] } ∧
    dirPathOf [] = "" ∧ filesWritten mdNoInstruments = [] :=
  empty_instruments_empty_result mdNoInstruments "Empty" 100 rfl rfl rfl

end AutoCompose
